import Mathlib

/-!
Verification of the meteor agent runtime (package `agent`, file agent.go)
against its natural-language specification.

The agent code (`Agent.Run`, `Agent.RunMultiple`, `Agent.Validate`,
`setupExtractor`, `setupProcessor`, `setupSink`, `logAndRecordMetrics`)
is embedded from the source.  The collaborating components that are not
part of the provided sources — the stream, the retrier, the `Run` struct,
the registry and the recipe types — are modelled from the specification
(sections 3, 4.2, 4.3 and 4.4); each such definition carries a doc
comment saying so.

Plugins are external collaborators: they are modelled as behaviour
records (what `Init`/`Validate` return, which records the extractor
emits, how a processor transforms a record, how a sink answers each
delivery attempt), and an `Env` maps plugin names to behaviours, playing
the role of the three plugin factories.

Executions are deterministic: the goroutine structure of `Run` is
linearised following the ordering guarantees of spec section 5
(emission order preserved through the middleware chain and into each
subscriber, setup strictly before `broadcast`, the deferred finalizer
last).  Besides the `Run` value, an execution produces a trace of
`Event`s used to state the temporal claims.
-/

namespace Meteor

/-- Go `error` values are modelled by their message string; `none` is Go's
`nil` error. -/
abbrev Err := String

/-- `errors.Wrap(err, msg)` from github.com/pkg/errors: the wrapped error
prints as "msg: cause". -/
def wrap (cause : Err) (msg : String) : Err := msg ++ ": " ++ cause

/-- Records are abstract envelopes (models.Record); the pipeline only moves
them around, so a token suffices. -/
abbrev Record := Nat

/-- Plugin config maps (map[string]interface\x7b\x7d) are not inspected by the agent;
modelled as tokens. -/
abbrev Config := Nat

/-- Modelled from the spec: recipe.SourceRecipe (spec section 6, recipe
shape; the recipe package is not among the provided sources). -/
structure SourceRecipe where
  type : String
  config : Config
deriving Repr, DecidableEq

/-- Modelled from the spec: recipe.ProcessorRecipe. -/
structure ProcessorRecipe where
  name : String
  config : Config
deriving Repr, DecidableEq

/-- Modelled from the spec: recipe.SinkRecipe. -/
structure SinkRecipe where
  name : String
  config : Config
deriving Repr, DecidableEq

/-- Modelled from the spec: recipe.Recipe (spec sections 3 and 6). -/
structure Recipe where
  name : String
  source : SourceRecipe
  processors : List ProcessorRecipe
  sinks : List SinkRecipe
deriving Repr, DecidableEq

/-- Modelled from the spec: the Run summary struct (spec section 3), with
exactly the fields agent.go reads and writes: Recipe, RecordCount,
DurationInMs, Success, Error.  Zero value: 0 / false / nil. -/
structure Run where
  recipe : Recipe
  recordCount : Nat
  durationInMs : Int
  success : Bool
  error : Option Err
deriving Repr, DecidableEq

/-- How an `Extract` call ends: a normal return (with a nil or non-nil
error) or a panic with some payload (its `%s` string form). -/
inductive ExtractEnd
  | ret (e : Option Err)
  | panics (payload : String)
deriving Repr, DecidableEq

/-- Behaviour of an extractor plugin: results of `Validate` and `Init`,
the records `Extract` pushes (in order), and how `Extract` ends. -/
structure ExtractorB where
  validate : Config → Option Err
  initRes : Config → Option Err
  emits : List Record
  ending : ExtractEnd

/-- Behaviour of a processor plugin. -/
structure ProcessorB where
  validate : Config → Option Err
  initRes : Config → Option Err
  process : Record → Except Err Record

/-- Result of one `Sink` call: success, an error wrapped in the
distinguished RetryError kind, or a plain (permanent) error. -/
inductive SinkResult
  | ok
  | retryable (e : Err)
  | permanent (e : Err)
deriving Repr, DecidableEq

/-- Behaviour of a sink plugin.  `sinkFn batch attempt` is the result of
the `Sink` call for `batch` on the given attempt (0-based) of one retry
loop. -/
structure SinkB where
  validate : Config → Option Err
  initRes : Config → Option Err
  sinkFn : List Record → Nat → SinkResult
  closeErr : Option Err

/-- Modelled from the spec: the three registry factories (spec section
4.2), as name-to-behaviour lookups. `none` is the unknown-name case. -/
structure Env where
  extractors : String → Option ExtractorB
  processors : String → Option ProcessorB
  sinks : String → Option SinkB

/-- Modelled from the spec: the message of the registry's unknown-name
error (spec section 4.2; the registry package is not among the provided
sources).  Only its presence as a wrap cause matters to the claims. -/
def factoryNotFound : Err := "not found"

/-- The agent configuration fields that `NewAgent` consumes and the run
needs: StopOnSinkError, MaxRetries, and the value the injected timer
function returns at the end of the run. -/
structure AgentCfg where
  stopOnSinkError : Bool
  maxRetries : Nat
  timer : Int

/-- Modelled from the spec: the retrier loop (spec section 4.3).  `nil`
stops with `nil`; a RetryError sleeps and retries up to max_retries total
attempts, after which the last error is returned unwrapped; any other
error is returned immediately. -/
def retryGo (op : Nat → SinkResult) : Nat → Nat → Option Err
  | attempt, fuel =>
    match op attempt with
    | .ok => none
    | .permanent e => some e
    | .retryable e =>
      match fuel with
      | 0 => some e
      | f + 1 => retryGo op (attempt + 1) f

/-- Modelled from the spec: `retrier.retry` with `maxRetries` total
attempts (spec section 4.3). -/
def retry (maxRetries : Nat) (op : Nat → SinkResult) : Option Err :=
  retryGo op 0 (maxRetries - 1)

/-- From agent.go line 17: `const defaultBatchSize = 1`. -/
def defaultBatchSize : Nat := 1

/-- Observable events of one `Run`, used to state the temporal claims:
plugin `Init` invocations, the start of `Extract`, each record pushed by
the extractor, each delivered sink batch, each sink close hook, and the
`monitor.RecordRun` call of the deferred finalizer. -/
inductive Event
  | initExtractor (typ : String)
  | initProcessor (name : String)
  | initSink (name : String)
  | extractStart
  | emit (r : Record)
  | sinkBatch (name : String) (batch : List Record)
  | sinkClose (name : String)
  | recordRun (run : Run)
deriving Repr, DecidableEq

/-- A stream middleware: either the closure registered by
`setupProcessor` (delegating to `Process` and wrapping its error) or the
record-counting closure `Run` installs after the processors. -/
inductive Mw
  | proc (name : String) (f : Record → Except Err Record)
  | counter

/-- Modelled from the spec: the middleware chain is applied in insertion
order and a failure short-circuits (spec section 4.4).  The counter
closure increments the running count (agent.go lines 152-156); the
processor closure wraps a failure as in agent.go lines 216-224. -/
def applyMws : List Mw → Record → Nat → Except Err Record × Nat
  | [], r, cnt => (.ok r, cnt)
  | .proc name f :: rest, r, cnt =>
    match f r with
    | .ok r2 => applyMws rest r2 cnt
    | .error e =>
      (.error (wrap e ("error running processor \"" ++ name ++ "\"")), cnt)
  | .counter :: rest, r, cnt => applyMws rest r (cnt + 1)

/-- A stream subscriber: the batch handler registered by `setupSink` and
its batch size. -/
structure Sub where
  name : String
  batchSize : Nat
  handler : List Record → Option Err

/-- A subscriber together with its batch buffer. -/
structure SubSt where
  sub : Sub
  buf : List Record

/-- First non-nil of two error slots. -/
def firstErr : Option Err → Option Err → Option Err
  | some e, _ => some e
  | none, o => o

/-- Modelled from the spec: delivering one post-middleware record to the
subscribers (spec section 4.4): each subscriber buffers the record and,
when the buffer reaches its batch size, its handler is called with the
batch; a non-nil handler result becomes the stream's terminal error. -/
def deliverSubs (r : Record) : List SubSt → List SubSt × List Event × Option Err
  | [] => ([], [], none)
  | s :: rest =>
    let buf2 := s.buf ++ [r]
    let recv := deliverSubs r rest
    if s.sub.batchSize ≤ buf2.length then
      (⟨s.sub, []⟩ :: recv.1,
       Event.sinkBatch s.sub.name buf2 :: recv.2.1,
       firstErr (s.sub.handler buf2) recv.2.2)
    else
      (⟨s.sub, buf2⟩ :: recv.1, recv.2.1, recv.2.2)

/-- The dispatcher state while the stream is live: terminal-error slot,
the running record count of the counting middleware, the subscribers
with their buffers, and the event trace so far. -/
structure DState where
  termErr : Option Err
  count : Nat
  subs : List SubSt
  events : List Event

/-- Modelled from the spec: the dispatcher's handling of one pushed
record (spec section 4.4): once a terminal error is recorded no further
record is processed or delivered; otherwise the middleware chain runs
and, on success, the record goes to every subscriber. -/
def dispatchRecord (mws : List Mw) (st : DState) (r : Record) : DState :=
  match st.termErr with
  | some _ => { st with events := st.events ++ [Event.emit r] }
  | none =>
    match applyMws mws r st.count with
    | (.error e, cnt) =>
      { st with events := st.events ++ [Event.emit r],
                termErr := some e, count := cnt }
    | (.ok r2, cnt) =>
      { termErr := (deliverSubs r2 st.subs).2.2,
        count := cnt,
        subs := (deliverSubs r2 st.subs).1,
        events := st.events ++ [Event.emit r] ++ (deliverSubs r2 st.subs).2.1 }

/-- Modelled from the spec: the final flush at close — each subscriber
with a nonempty buffer receives it as a last, possibly short batch (spec
section 4.4). -/
def flushSubs : List SubSt → List Event × Option Err
  | [] => ([], none)
  | s :: rest =>
    let recv := flushSubs rest
    if s.buf.isEmpty then (recv.1, recv.2)
    else (Event.sinkBatch s.sub.name s.buf :: recv.1,
          firstErr (s.sub.handler s.buf) recv.2)

/-- From agent.go setupExtractor (lines 186-205): look the extractor up,
wrap a lookup failure, call `Init`, wrap an init failure.  The returned
run function (extract, wrapping its error) is applied later; here the
resolved behaviour is returned.  The first component is the trace of
`Init` invocations. -/
def setupExtractor (env : Env) (sr : SourceRecipe) : List Event × Except Err ExtractorB :=
  match env.extractors sr.type with
  | none =>
    ([], .error (wrap factoryNotFound ("could not find extractor \"" ++ sr.type ++ "\"")))
  | some ext =>
    match ext.initRes sr.config with
    | some e =>
      ([Event.initExtractor sr.type],
       .error (wrap e ("could not initiate extractor \"" ++ sr.type ++ "\"")))
    | none => ([Event.initExtractor sr.type], .ok ext)

/-- From agent.go setupProcessor (lines 207-227), iterated over the
recipe's processors as in Run lines 138-143: look up, `Init`, register
the middleware; the first failure stops the loop.  Returns the `Init`
trace, the middlewares registered so far, and the failure if any. -/
def setupProcessors (env : Env) : List ProcessorRecipe → List Event × List Mw × Option Err
  | [] => ([], [], none)
  | pr :: rest =>
    match env.processors pr.name with
    | none =>
      ([], [], some (wrap factoryNotFound ("could not find processor \"" ++ pr.name ++ "\"")))
    | some p =>
      match p.initRes pr.config with
      | some e =>
        ([Event.initProcessor pr.name], [],
         some (wrap e ("could not initiate processor \"" ++ pr.name ++ "\"")))
      | none =>
        let recv := setupProcessors env rest
        (Event.initProcessor pr.name :: recv.1,
         Mw.proc pr.name p.process :: recv.2.1, recv.2.2)

/-- The batch handler `setupSink` subscribes (agent.go lines 244-261):
wrap `Sink` in the retrier; a non-nil post-retry error is logged and
reset to nil unless StopOnSinkError is set. -/
def sinkHandler (ag : AgentCfg) (sk : SinkB) : List Record → Option Err :=
  fun batch =>
    match retry ag.maxRetries (sk.sinkFn batch) with
    | some e => if ag.stopOnSinkError then some e else none
    | none => none

/-- From agent.go setupSink (lines 229-270), iterated over the recipe's
sinks as in Run lines 145-150: look up, `Init`, subscribe the retried
batch handler with `defaultBatchSize`, register the close hook.  Returns
the `Init` trace, the subscribers, the close-hook sink names (in
registration order), and the failure if any. -/
def setupSinks (ag : AgentCfg) (env : Env) :
    List SinkRecipe → List Event × List Sub × List String × Option Err
  | [] => ([], [], [], none)
  | sr :: rest =>
    match env.sinks sr.name with
    | none =>
      ([], [], [],
       some (wrap factoryNotFound ("could not find sink \"" ++ sr.name ++ "\"")))
    | some sk =>
      match sk.initRes sr.config with
      | some e =>
        ([Event.initSink sr.name], [], [],
         some (wrap e ("could not initiate sink \"" ++ sr.name ++ "\"")))
      | none =>
        let recv := setupSinks ag env rest
        (Event.initSink sr.name :: recv.1,
         { name := sr.name, batchSize := defaultBatchSize,
           handler := sinkHandler ag sk } :: recv.2.1,
         sr.name :: recv.2.2.1, recv.2.2.2)

/-- The stream's state when `broadcast` begins: no terminal error, zero
count, empty buffers, and the extractor about to start. -/
def initStream (subs : List Sub) : DState :=
  { termErr := none, count := 0,
    subs := subs.map (fun s => { sub := s, buf := [] }),
    events := [Event.extractStart] }

/-- The streaming part of agent.go Run (lines 152-183) once setup has
succeeded: install the counting middleware last, run the extractor
(which pushes its records and then returns or panics, closing the
stream), drive the broadcast, flush, run the close hooks, and assemble
the Run value.  The goroutine's `run.Error` assignment (panic payload or
wrapped extract error, lines 160-171) happens before broadcast returns;
a non-nil broadcast error then overwrites `run.Error` (lines 175-177). -/
def mainPhase (rcp : Recipe) (ext : ExtractorB)
    (mws : List Mw) (subs : List Sub) (closes : List String) : Run × List Event :=
  let st1 := ext.emits.foldl (dispatchRecord (mws ++ [Mw.counter])) (initStream subs)
  let termErr := firstErr st1.termErr (flushSubs st1.subs).2
  let extractErr : Option Err :=
    match ext.ending with
    | .ret none => none
    | .ret (some e) =>
      some (wrap (wrap e ("error running extractor \"" ++ rcp.source.type ++ "\""))
        "failed to run extractor")
    | .panics p => some p
  let finalErr : Option Err :=
    match termErr with
    | some e => some (wrap e "failed to broadcast stream")
    | none => extractErr
  ({ recipe := rcp, recordCount := st1.count, durationInMs := 0,
     success := finalErr == none, error := finalErr },
   st1.events ++ (flushSubs st1.subs).1 ++ closes.map Event.sinkClose)

/-- From agent.go Run (lines 116-184), without the deferred finalizer:
the three setup stages with their early returns (each leaving Success at
its false zero value and RecordCount at 0) and the streaming phase. -/
def runCore (ag : AgentCfg) (env : Env) (rcp : Recipe) : Run × List Event :=
  match setupExtractor env rcp.source with
  | (evs1, .error e) =>
    ({ recipe := rcp, recordCount := 0, durationInMs := 0, success := false,
       error := some (wrap e "failed to setup extractor") }, evs1)
  | (evs1, .ok ext) =>
    match setupProcessors env rcp.processors with
    | (evs2, _, some e) =>
      ({ recipe := rcp, recordCount := 0, durationInMs := 0, success := false,
         error := some (wrap e "failed to setup processor") }, evs1 ++ evs2)
    | (evs2, mws, none) =>
      match setupSinks ag env rcp.sinks with
      | (evs3, _, _, some e) =>
        ({ recipe := rcp, recordCount := 0, durationInMs := 0, success := false,
           error := some (wrap e "failed to setup sink") }, evs1 ++ evs2 ++ evs3)
      | (evs3, subs, closes, none) =>
        ((mainPhase rcp ext mws subs closes).1,
         evs1 ++ evs2 ++ evs3 ++ (mainPhase rcp ext mws subs closes).2)

/-- From agent.go logAndRecordMetrics (lines 281-289): the Run value is
received by value, its DurationInMs is set to the timer result, and that
copy is what `monitor.RecordRun` receives. -/
def logAndRecordMetrics (timer : Int) (run : Run) : Run :=
  { run with durationInMs := timer }

/-- agent.go Run including the deferred finalizer (lines 127-130): on
every path the finalizer computes the duration and passes the Run copy
to `monitor.RecordRun`; the caller gets the un-updated Run value. -/
def runAgent (ag : AgentCfg) (env : Env) (rcp : Recipe) : Run × List Event :=
  ((runCore ag env rcp).1,
   (runCore ag env rcp).2
     ++ [Event.recordRun (logAndRecordMetrics ag.timer (runCore ag env rcp).1)])

/-- From agent.go RunMultiple (lines 94-113): one run per recipe, the
i-th result slot receiving the i-th recipe's Run; the per-recipe
goroutines are independent, so the parallel execution is linearised as a
map. -/
def runMultiple (ag : AgentCfg) (env : Env) (rcps : List Recipe) : List Run :=
  rcps.map (fun rcp => (runAgent ag env rcp).1)

/-- Modelled from the spec: the plugin role names used in validation
messages (plugins.PluginTypeExtractor / Processor / Sink; the plugins
package is not among the provided sources). -/
def pluginTypeExtractor : String := "extractor"

/-- Modelled from the spec: plugins.PluginTypeProcessor. -/
def pluginTypeProcessor : String := "processor"

/-- Modelled from the spec: plugins.PluginTypeSink. -/
def pluginTypeSink : String := "sink"

/-- From agent.go Validate (lines 60-91), kept faithful to the source:
the lookup-failure entries for sinks (line 72) and processors (line 83)
are wrapped with the recipe's source type and the extractor role, while
the invalid-config entries use the concerned plugin's own name and
role. -/
def validateRecipe (env : Env) (rcp : Recipe) : List Err :=
  (match env.extractors rcp.source.type with
   | none =>
     [wrap factoryNotFound
       ("invalid config for " ++ rcp.source.type ++ " (" ++ pluginTypeExtractor ++ ")")]
   | some ext =>
     match ext.validate rcp.source.config with
     | some e =>
       [wrap e ("invalid config for " ++ rcp.source.type ++ " (" ++ pluginTypeExtractor ++ ")")]
     | none => [])
  ++ rcp.sinks.flatMap (fun s =>
      match env.sinks s.name with
      | none =>
        [wrap factoryNotFound
          ("invalid config for " ++ rcp.source.type ++ " (" ++ pluginTypeExtractor ++ ")")]
      | some sk =>
        match sk.validate s.config with
        | some e =>
          [wrap e ("invalid config for " ++ s.name ++ " (" ++ pluginTypeSink ++ ")")]
        | none => [])
  ++ rcp.processors.flatMap (fun p =>
      match env.processors p.name with
      | none =>
        [wrap factoryNotFound
          ("invalid config for " ++ rcp.source.type ++ " (" ++ pluginTypeExtractor ++ ")")]
      | some pc =>
        match pc.validate p.config with
        | some e =>
          [wrap e ("invalid config for " ++ p.name ++ " (" ++ pluginTypeProcessor ++ ")")]
        | none => [])

/-- Substring test on strings, used to state the "error text contains"
claims; defined over the character lists. -/
def containsStr (hay needle : String) : Bool :=
  (List.range (hay.toList.length + 1)).any
    (fun i => ((hay.toList.drop i).take needle.toList.length) == needle.toList)

/-- Whether an event is a plugin `Init` invocation. -/
def Event.isInit : Event → Bool
  | .initExtractor _ => true
  | .initProcessor _ => true
  | .initSink _ => true
  | _ => false

/-- Whether an event is the `monitor.RecordRun` call. -/
def Event.isRecordRun : Event → Bool
  | .recordRun _ => true
  | _ => false

/-- An extractor behaviour with passing Validate and Init, given
emissions and ending. -/
def extB (rs : List Record) (ending : ExtractEnd) : ExtractorB :=
  { validate := fun _ => none, initRes := fun _ => none,
    emits := rs, ending := ending }

/-- The identity processor behaviour. -/
def procId : ProcessorB :=
  { validate := fun _ => none, initRes := fun _ => none,
    process := fun r => .ok r }

/-- A processor that fails exactly on record `k`. -/
def procFailAt (k : Nat) : ProcessorB :=
  { validate := fun _ => none, initRes := fun _ => none,
    process := fun r => if r = k then .error "bad record" else .ok r }

/-- A sink that always succeeds. -/
def sinkOk : SinkB :=
  { validate := fun _ => none, initRes := fun _ => none,
    sinkFn := fun _ _ => .ok, closeErr := none }

/-- A sink whose every `Sink` call returns the permanent error `e`. -/
def sinkPerm (e : Err) : SinkB :=
  { validate := fun _ => none, initRes := fun _ => none,
    sinkFn := fun _ _ => .permanent e, closeErr := none }

/-- A sink whose every `Sink` call returns `e` wrapped as a RetryError. -/
def sinkRetry (e : Err) : SinkB :=
  { validate := fun _ => none, initRes := fun _ => none,
    sinkFn := fun _ _ => .retryable e, closeErr := none }

/-- An environment registering at most one plugin per role, under the
names "ext", "proc" and "snk". -/
def mkEnv (eB : Option ExtractorB) (pB : Option ProcessorB) (sB : Option SinkB) : Env :=
  { extractors := fun t => if t = "ext" then eB else none,
    processors := fun n => if n = "proc" then pB else none,
    sinks := fun n => if n = "snk" then sB else none }

/-- A recipe with source "ext", no processor and the single sink "snk". -/
def rcpNoProc : Recipe :=
  { name := "r", source := { type := "ext", config := 0 },
    processors := [], sinks := [{ name := "snk", config := 0 }] }

/-- A recipe with source "ext", the single processor "proc" and the
single sink "snk". -/
def rcpProc : Recipe :=
  { name := "r", source := { type := "ext", config := 0 },
    processors := [{ name := "proc", config := 0 }],
    sinks := [{ name := "snk", config := 0 }] }

/-- Default agent configuration for the concrete scenarios. -/
def agDef : AgentCfg := { stopOnSinkError := false, maxRetries := 2, timer := 0 }

/-- Agent configuration with StopOnSinkError set. -/
def agStop : AgentCfg := { stopOnSinkError := true, maxRetries := 2, timer := 0 }

/-- Agent configuration whose injected timer reports 1000 ms. -/
def agTimer : AgentCfg := { stopOnSinkError := false, maxRetries := 2, timer := 1000 }

/-- Environment family for the record-count analysis: extractor "ext"
emitting `rs` and returning nil, processor "proc" failing exactly on
record `k`, well-behaved sink "snk". -/
def envCount (k : Nat) (rs : List Record) : Env :=
  mkEnv (some (extB rs (.ret none))) (some (procFailAt k)) (some sinkOk)

/-- Environment family for the panic analysis: extractor "ext" emitting
`rs` and then panicking with payload `p`, no processor registered,
well-behaved sink "snk". -/
def envPanics (p : String) (rs : List Record) : Env :=
  mkEnv (some (extB rs (.panics p))) none (some sinkOk)

/-- The subscriber that `setupSinks` registers for the sink "snk" backed
by the well-behaved `sinkOk`. -/
def subSnk (ag : AgentCfg) : Sub :=
  { name := "snk", batchSize := defaultBatchSize, handler := sinkHandler ag sinkOk }








theorem runCore_success_eq (ag : AgentCfg) (env : Env) (rcp : Recipe) :
    (runCore ag env rcp).1.success = ((runCore ag env rcp).1.error == none) := by
  unfold runCore
  split
  · rfl
  split
  · rfl
  split
  · rfl
  · rfl

theorem runCore_duration_eq (ag : AgentCfg) (env : Env) (rcp : Recipe) :
    (runCore ag env rcp).1.durationInMs = 0 := by
  unfold runCore
  split
  · rfl
  split
  · rfl
  split
  · rfl
  · rfl

theorem runCore_recipe_eq (ag : AgentCfg) (env : Env) (rcp : Recipe) :
    (runCore ag env rcp).1.recipe = rcp := by
  unfold runCore
  split
  · rfl
  split
  · rfl
  split
  · rfl
  · rfl

theorem setupExtractor_events (env : Env) (sr : SourceRecipe) :
    (setupExtractor env sr).1 = [] ∨
      (setupExtractor env sr).1 = [Event.initExtractor sr.type] := by
  unfold setupExtractor
  split
  · exact Or.inl rfl
  split
  · exact Or.inr rfl
  · exact Or.inr rfl

theorem setupExtractor_ok_events (env : Env) (sr : SourceRecipe) (ext : ExtractorB)
    (h : (setupExtractor env sr).2 = .ok ext) :
    (setupExtractor env sr).1 = [Event.initExtractor sr.type] := by
  unfold setupExtractor at h ⊢
  split at h
  · simp at h
  split at h
  · simp at h
  · rfl

theorem setupProcessors_shape (env : Env) :
    ∀ prs : List ProcessorRecipe, ∃ k, k ≤ prs.length ∧
      (setupProcessors env prs).1
        = (prs.take k).map (fun p => Event.initProcessor p.name) ∧
      ((setupProcessors env prs).2.2 = none → k = prs.length)
  | [] => ⟨0, by simp [setupProcessors]⟩
  | pr :: rest => by
    obtain ⟨k, hk, hev, himp⟩ := setupProcessors_shape env rest
    unfold setupProcessors
    cases h : env.processors pr.name with
    | none => exact ⟨0, by simp, by simp, by simp⟩
    | some p =>
      cases h2 : p.initRes pr.config with
      | some e =>
        exact ⟨1, by simp, by simp [h2], by simp [h2]⟩
      | none =>
        simp only [h2]
        refine ⟨k + 1, by simpa using hk, by simp [hev, List.take_succ_cons],
          fun hn => ?_⟩
        simp only [List.length_cons, himp hn]

theorem setupSinks_shape (ag : AgentCfg) (env : Env) :
    ∀ srs : List SinkRecipe, ∃ k, k ≤ srs.length ∧
      (setupSinks ag env srs).1
        = (srs.take k).map (fun s => Event.initSink s.name) ∧
      ((setupSinks ag env srs).2.2.2 = none → k = srs.length)
  | [] => ⟨0, by simp [setupSinks]⟩
  | sr :: rest => by
    obtain ⟨k, hk, hev, himp⟩ := setupSinks_shape ag env rest
    unfold setupSinks
    cases h : env.sinks sr.name with
    | none => exact ⟨0, by simp, by simp, by simp⟩
    | some sk =>
      cases h2 : sk.initRes sr.config with
      | some e =>
        exact ⟨1, by simp, by simp [h2], by simp [h2]⟩
      | none =>
        simp only [h2]
        refine ⟨k + 1, by simpa using hk, by simp [hev, List.take_succ_cons],
          fun hn => ?_⟩
        simp only [List.length_cons, himp hn]

theorem setupSinks_batchSize (ag : AgentCfg) (env : Env) :
    ∀ srs : List SinkRecipe, ∀ s ∈ (setupSinks ag env srs).2.1,
      s.batchSize = defaultBatchSize
  | [] => by simp [setupSinks]
  | sr :: rest => by
    intro s hs
    unfold setupSinks at hs
    cases h : env.sinks sr.name with
    | none => simp [h] at hs
    | some sk =>
      cases h2 : sk.initRes sr.config with
      | some e => simp [h, h2] at hs
      | none =>
        simp only [h, h2] at hs
        rcases List.mem_cons.mp hs with h3 | h3
        · simp [h3]
        · exact setupSinks_batchSize ag env rest s h3

theorem deliverSubs_events (r : Record) :
    ∀ subs, ∀ e ∈ (deliverSubs r subs).2.1, ∃ n b, e = Event.sinkBatch n b
  | [] => by simp [deliverSubs]
  | s :: rest => by
    intro e he
    unfold deliverSubs at he
    by_cases hb : s.sub.batchSize ≤ (s.buf ++ [r]).length
    · simp only [hb, if_true] at he
      rcases List.mem_cons.mp he with h3 | h3
      · exact ⟨_, _, h3⟩
      · exact deliverSubs_events r rest e h3
    · simp only [hb, if_false] at he
      exact deliverSubs_events r rest e he

theorem flushSubs_events :
    ∀ subs, ∀ e ∈ (flushSubs subs).1, ∃ n b, e = Event.sinkBatch n b
  | [] => by simp [flushSubs]
  | s :: rest => by
    intro e he
    unfold flushSubs at he
    by_cases hb : s.buf.isEmpty
    · simp only [hb, if_true] at he
      exact flushSubs_events rest e he
    · simp only [hb, if_false] at he
      rcases List.mem_cons.mp he with h3 | h3
      · exact ⟨_, _, h3⟩
      · exact flushSubs_events rest e h3

theorem dispatchRecord_events (mws : List Mw) (st : DState) (r : Record) :
    ∃ extra, (dispatchRecord mws st r).events = st.events ++ extra ∧
      ∀ e ∈ extra, (∃ x, e = Event.emit x) ∨ ∃ n b, e = Event.sinkBatch n b := by
  unfold dispatchRecord
  split
  · exact ⟨[Event.emit r], rfl, by simp⟩
  split
  · exact ⟨[Event.emit r], rfl, by simp⟩
  · rename_i r2 cnt heq
    refine ⟨[Event.emit r] ++ (deliverSubs r2 st.subs).2.1, by simp, ?_⟩
    intro e he
    rcases List.mem_append.mp he with h3 | h3
    · exact Or.inl ⟨r, by simpa using h3⟩
    · exact Or.inr (deliverSubs_events r2 st.subs e h3)

theorem foldl_dispatch_events (mws : List Mw) :
    ∀ (rs : List Record) (st : DState),
      ∃ extra, (rs.foldl (dispatchRecord mws) st).events = st.events ++ extra ∧
        ∀ e ∈ extra, (∃ x, e = Event.emit x) ∨ ∃ n b, e = Event.sinkBatch n b
  | [], st => ⟨[], by simp⟩
  | r :: rs, st => by
    obtain ⟨e1, he1, hc1⟩ := dispatchRecord_events mws st r
    obtain ⟨e2, he2, hc2⟩ := foldl_dispatch_events mws rs (dispatchRecord mws st r)
    refine ⟨e1 ++ e2, ?_, ?_⟩
    · simp only [List.foldl_cons, he2, he1, List.append_assoc]
    · intro e he
      rcases List.mem_append.mp he with h3 | h3
      · exact hc1 e h3
      · exact hc2 e h3

theorem deliverSubs_handlers_none (r : Record) :
    ∀ subs, (∀ s ∈ subs, ∀ b, s.sub.handler b = none) →
      (deliverSubs r subs).2.2 = none ∧
      ∀ s ∈ (deliverSubs r subs).1, ∀ b, s.sub.handler b = none
  | [] => by simp [deliverSubs]
  | s :: rest => by
    intro h
    have hs := h s (by simp)
    have hrest := deliverSubs_handlers_none r rest
      (fun x hx => h x (List.mem_cons_of_mem _ hx))
    unfold deliverSubs
    by_cases hb : s.sub.batchSize ≤ (s.buf ++ [r]).length
    · simp only [hb, if_true]
      refine ⟨by simp [hs, hrest.1, firstErr], ?_⟩
      intro x hx
      rcases List.mem_cons.mp hx with h3 | h3
      · subst h3; simpa using hs
      · exact hrest.2 x h3
    · simp only [hb, if_false]
      refine ⟨hrest.1, ?_⟩
      intro x hx
      rcases List.mem_cons.mp hx with h3 | h3
      · subst h3; simpa using hs
      · exact hrest.2 x h3

theorem flushSubs_handlers_none :
    ∀ subs, (∀ s ∈ subs, ∀ b, s.sub.handler b = none) →
      (flushSubs subs).2 = none
  | [] => by simp [flushSubs]
  | s :: rest => by
    intro h
    have hs := h s (by simp)
    have hrest := flushSubs_handlers_none rest
      (fun x hx => h x (List.mem_cons_of_mem _ hx))
    unfold flushSubs
    by_cases hb : s.buf.isEmpty
    · simp only [hb, if_true]
      exact hrest
    · simp only [hb, if_false]
      simp [hs, hrest, firstErr]

theorem foldl_dispatch_benign (mws : List Mw) :
    ∀ (rs : List Record) (st : DState),
      st.termErr = none →
      (∀ s ∈ st.subs, ∀ b, s.sub.handler b = none) →
      (∀ r ∈ rs, ∀ c, ∃ r2, applyMws mws r c = (.ok r2, c + 1)) →
      (rs.foldl (dispatchRecord mws) st).termErr = none ∧
      (rs.foldl (dispatchRecord mws) st).count = st.count + rs.length ∧
      ∀ s ∈ (rs.foldl (dispatchRecord mws) st).subs, ∀ b, s.sub.handler b = none
  | [], st => by
    intro ht hh _
    exact ⟨ht, by simp, hh⟩
  | r :: rs, st => by
    intro ht hh hmw
    obtain ⟨r2, hr2⟩ := hmw r (by simp) st.count
    have step : dispatchRecord mws st r =
        { termErr := (deliverSubs r2 st.subs).2.2, count := st.count + 1,
          subs := (deliverSubs r2 st.subs).1,
          events := st.events ++ [Event.emit r] ++ (deliverSubs r2 st.subs).2.1 } := by
      unfold dispatchRecord
      simp only [ht, hr2]
    have hd := deliverSubs_handlers_none r2 st.subs hh
    have ih := foldl_dispatch_benign mws rs (dispatchRecord mws st r)
      (by rw [step]; exact hd.1) (by rw [step]; exact hd.2)
      (fun x hx => hmw x (List.mem_cons_of_mem _ hx))
    have hcount :
        (List.foldl (dispatchRecord mws) (dispatchRecord mws st r) rs).count
          = st.count + (rs.length + 1) := by
      rw [ih.2.1, step]
      simp only []
      omega
    exact ⟨ih.1, by simpa only [List.foldl_cons, List.length_cons] using hcount, ih.2.2⟩

theorem dispatchRecord_error_step (mws : List Mw) (st : DState) (r : Record) (e : Err)
    (ht : st.termErr = none)
    (ha : applyMws mws r st.count = (.error e, st.count)) :
    (dispatchRecord mws st r).termErr = some e ∧ (dispatchRecord mws st r).count = st.count := by
  have step : dispatchRecord mws st r =
      { st with events := st.events ++ [Event.emit r],
                termErr := some e, count := st.count } := by
    unfold dispatchRecord
    simp only [ht, ha]
  rw [step]
  exact ⟨rfl, rfl⟩

theorem foldl_dispatch_stuck (mws : List Mw) :
    ∀ (rs : List Record) (st : DState) (e : Err),
      st.termErr = some e →
      (rs.foldl (dispatchRecord mws) st).termErr = some e ∧
      (rs.foldl (dispatchRecord mws) st).count = st.count ∧
      (rs.foldl (dispatchRecord mws) st).subs = st.subs
  | [], st, e => fun h => ⟨h, rfl, rfl⟩
  | r :: rs, st, e => by
    intro h
    have step : dispatchRecord mws st r =
        { st with events := st.events ++ [Event.emit r] } := by
      unfold dispatchRecord
      simp only [h]
    simp only [List.foldl_cons, step]
    exact foldl_dispatch_stuck mws rs { st with events := st.events ++ [Event.emit r] } e h

theorem deliverSubs_batch_one (r : Record) :
    ∀ subs, (∀ s ∈ subs, s.sub.batchSize = 1 ∧ s.buf = []) →
      ((∀ s ∈ (deliverSubs r subs).1, s.sub.batchSize = 1 ∧ s.buf = []) ∧
       ∀ e ∈ (deliverSubs r subs).2.1, ∃ n, e = Event.sinkBatch n [r])
  | [] => by simp [deliverSubs]
  | s :: rest => by
    intro h
    have hs := h s (by simp)
    have hrest := deliverSubs_batch_one r rest
      (fun x hx => h x (List.mem_cons_of_mem _ hx))
    unfold deliverSubs
    have hb : s.sub.batchSize ≤ (s.buf ++ [r]).length := by
      simp [hs.1, hs.2]
    simp only [hb, if_true]
    refine ⟨?_, ?_⟩
    · intro x hx
      rcases List.mem_cons.mp hx with h3 | h3
      · subst h3; exact ⟨hs.1, rfl⟩
      · exact hrest.1 x h3
    · intro e he
      rcases List.mem_cons.mp he with h3 | h3
      · exact ⟨s.sub.name, by simp [h3, hs.2]⟩
      · exact hrest.2 e h3

theorem dispatchRecord_batch_one (mws : List Mw) (st : DState) (r : Record)
    (hs : ∀ s ∈ st.subs, s.sub.batchSize = 1 ∧ s.buf = [])
    (he : ∀ n b, Event.sinkBatch n b ∈ st.events → b.length = 1) :
    (∀ s ∈ (dispatchRecord mws st r).subs, s.sub.batchSize = 1 ∧ s.buf = []) ∧
    ∀ n b, Event.sinkBatch n b ∈ (dispatchRecord mws st r).events → b.length = 1 := by
  unfold dispatchRecord
  split
  · refine ⟨hs, ?_⟩
    intro n b hb
    rcases List.mem_append.mp hb with h3 | h3
    · exact he n b h3
    · simp at h3
  split
  · refine ⟨hs, ?_⟩
    intro n b hb
    rcases List.mem_append.mp hb with h3 | h3
    · exact he n b h3
    · simp at h3
  · rename_i r2 cnt heq
    have hd := deliverSubs_batch_one r2 st.subs hs
    refine ⟨hd.1, ?_⟩
    intro n b hb
    rcases List.mem_append.mp hb with h3 | h3
    · rcases List.mem_append.mp h3 with h4 | h4
      · exact he n b h4
      · simp at h4
    · obtain ⟨n2, hn2⟩ := hd.2 (Event.sinkBatch n b) h3
      injection hn2 with h5 h6
      simp [h6]

theorem foldl_dispatch_batch_one (mws : List Mw) :
    ∀ (rs : List Record) (st : DState),
      (∀ s ∈ st.subs, s.sub.batchSize = 1 ∧ s.buf = []) →
      (∀ n b, Event.sinkBatch n b ∈ st.events → b.length = 1) →
      ((∀ s ∈ (rs.foldl (dispatchRecord mws) st).subs, s.sub.batchSize = 1 ∧ s.buf = []) ∧
       ∀ n b, Event.sinkBatch n b ∈ (rs.foldl (dispatchRecord mws) st).events → b.length = 1)
  | [], st => fun hs he => ⟨hs, he⟩
  | r :: rs, st => by
    intro hs he
    have hstep := dispatchRecord_batch_one mws st r hs he
    simpa only [List.foldl_cons] using
      foldl_dispatch_batch_one mws rs (dispatchRecord mws st r) hstep.1 hstep.2

theorem flushSubs_empty :
    ∀ subs, (∀ s ∈ subs, s.buf = ([] : List Record)) → flushSubs subs = ([], none)
  | [] => by simp [flushSubs]
  | s :: rest => by
    intro h
    have hs := h s (by simp)
    have hrest := flushSubs_empty rest (fun x hx => h x (List.mem_cons_of_mem _ hx))
    unfold flushSubs
    have hb : s.buf.isEmpty = true := by simp [hs]
    simp only [hb, if_true, hrest]

theorem mainPhase_events (rcp : Recipe) (ext : ExtractorB)
    (mws : List Mw) (subs : List Sub) (closes : List String) :
    ∀ e ∈ (mainPhase rcp ext mws subs closes).2,
      e = Event.extractStart ∨ (∃ x, e = Event.emit x) ∨
        (∃ n b, e = Event.sinkBatch n b) ∨ ∃ n, e = Event.sinkClose n := by
  intro e he
  simp only [mainPhase] at he
  rcases List.mem_append.mp he with h1 | h1
  · rcases List.mem_append.mp h1 with h2 | h2
    · obtain ⟨extra, hex, hcl⟩ :=
        foldl_dispatch_events (mws ++ [Mw.counter]) ext.emits (initStream subs)
      rw [hex] at h2
      rcases List.mem_append.mp h2 with h3 | h3
      · exact Or.inl (by simpa [initStream] using h3)
      · rcases hcl e h3 with h4 | h4
        · exact Or.inr (Or.inl h4)
        · exact Or.inr (Or.inr (Or.inl h4))
    · obtain ⟨n, b, hnb⟩ := flushSubs_events _ e h2
      exact Or.inr (Or.inr (Or.inl ⟨n, b, hnb⟩))
  · obtain ⟨n, -, hn⟩ := List.mem_map.mp h1
    exact Or.inr (Or.inr (Or.inr ⟨n, hn.symm⟩))

theorem runCore_events_shape (ag : AgentCfg) (env : Env) (rcp : Recipe) :
    ∃ (a : Bool) (b c : Nat) (rest : List Event),
      b ≤ rcp.processors.length ∧ c ≤ rcp.sinks.length ∧
      (runCore ag env rcp).2 =
        (if a then [Event.initExtractor rcp.source.type] else [])
          ++ (rcp.processors.take b).map (fun p => Event.initProcessor p.name)
          ++ (rcp.sinks.take c).map (fun s => Event.initSink s.name)
          ++ rest ∧
      (∀ e ∈ rest, e.isInit = false ∧ e.isRecordRun = false) ∧
      (Event.extractStart ∈ rest →
        a = true ∧ b = rcp.processors.length ∧ c = rcp.sinks.length) := by
  rcases heq : setupExtractor env rcp.source with ⟨evs1, res1⟩
  have h1 : (setupExtractor env rcp.source).1 = evs1 := by rw [heq]
  cases res1 with
  | error e =>
    rcases setupExtractor_events env rcp.source with h2 | h2
    · refine ⟨false, 0, 0, [], by simp, by simp, ?_, by simp, by simp⟩
      rw [h1] at h2
      simp [runCore, heq, h2]
    · refine ⟨true, 0, 0, [], by simp, by simp, ?_, by simp, by simp⟩
      rw [h1] at h2
      simp [runCore, heq, h2]
  | ok ext =>
    have h2 : (setupExtractor env rcp.source).2 = .ok ext := by rw [heq]
    have hev1 : evs1 = [Event.initExtractor rcp.source.type] := by
      rw [← h1]; exact setupExtractor_ok_events env rcp.source ext h2
    obtain ⟨k, hk, hevp, himp⟩ := setupProcessors_shape env rcp.processors
    rcases heq2 : setupProcessors env rcp.processors with ⟨evs2, mws2, perr⟩
    have hev2 : evs2 = (rcp.processors.take k).map (fun p => Event.initProcessor p.name) := by
      rw [← hevp, heq2]
    cases perr with
    | some e =>
      refine ⟨true, k, 0, [], hk, by simp, ?_, by simp, by simp⟩
      simp only [runCore, heq, heq2]
      rw [hev1, hev2]
      simp
    | none =>
      have hfullp : k = rcp.processors.length := himp (by rw [heq2])
      obtain ⟨m, hm, hevs, himps⟩ := setupSinks_shape ag env rcp.sinks
      rcases heq3 : setupSinks ag env rcp.sinks with ⟨evs3, subs, closes, serr⟩
      have hev3 : evs3 = (rcp.sinks.take m).map (fun s => Event.initSink s.name) := by
        rw [← hevs, heq3]
      cases serr with
      | some e =>
        refine ⟨true, k, m, [], hk, hm, ?_, by simp, by simp⟩
        simp only [runCore, heq, heq2, heq3]
        rw [hev1, hev2, hev3]
        simp
      | none =>
        have hfulls : m = rcp.sinks.length := himps (by rw [heq3])
        refine ⟨true, k, m, (mainPhase rcp ext mws2 subs closes).2, hk, hm, ?_, ?_, ?_⟩
        · simp only [runCore, heq, heq2, heq3]
          rw [hev1, hev2, hev3]
          simp [List.append_assoc]
        · intro e he
          rcases mainPhase_events rcp ext mws2 subs closes e he with h3 | h3 | h3 | h3
          · subst h3; exact ⟨rfl, rfl⟩
          · obtain ⟨x, hx⟩ := h3; subst hx; exact ⟨rfl, rfl⟩
          · obtain ⟨n, b, hx⟩ := h3; subst hx; exact ⟨rfl, rfl⟩
          · obtain ⟨n, hx⟩ := h3; subst hx; exact ⟨rfl, rfl⟩
        · intro _
          exact ⟨rfl, hfullp, hfulls⟩

theorem mainPhase_count (rcp : Recipe) (ext : ExtractorB)
    (mws : List Mw) (subs : List Sub) (closes : List String) :
    (mainPhase rcp ext mws subs closes).1.recordCount
      = (ext.emits.foldl (dispatchRecord (mws ++ [Mw.counter])) (initStream subs)).count := by
  simp only [mainPhase]

theorem mainPhase_success_beq (rcp : Recipe) (ext : ExtractorB)
    (mws : List Mw) (subs : List Sub) (closes : List String) :
    (mainPhase rcp ext mws subs closes).1.success
      = ((mainPhase rcp ext mws subs closes).1.error == none) := by
  simp only [mainPhase]

theorem mainPhase_error_clean (rcp : Recipe) (ext : ExtractorB)
    (mws : List Mw) (subs : List Sub) (closes : List String)
    (ht : (ext.emits.foldl (dispatchRecord (mws ++ [Mw.counter])) (initStream subs)).termErr
            = none)
    (hfl : (flushSubs
             (ext.emits.foldl (dispatchRecord (mws ++ [Mw.counter])) (initStream subs)).subs).2
            = none) :
    (mainPhase rcp ext mws subs closes).1.error
      = (match ext.ending with
         | .ret none => none
         | .ret (some e) =>
           some (wrap (wrap e ("error running extractor \"" ++ rcp.source.type ++ "\""))
             "failed to run extractor")
         | .panics p => some p) := by
  simp only [mainPhase, ht, hfl, firstErr]

theorem mainPhase_error_term (rcp : Recipe) (ext : ExtractorB)
    (mws : List Mw) (subs : List Sub) (closes : List String) (e : Err)
    (ht : (ext.emits.foldl (dispatchRecord (mws ++ [Mw.counter])) (initStream subs)).termErr
            = some e) :
    (mainPhase rcp ext mws subs closes).1.error
      = some (wrap e "failed to broadcast stream") := by
  simp only [mainPhase, ht, firstErr]

theorem mainPhase_close_mem (rcp : Recipe) (ext : ExtractorB)
    (mws : List Mw) (subs : List Sub) (closes : List String) (n : String)
    (hn : n ∈ closes) :
    Event.sinkClose n ∈ (mainPhase rcp ext mws subs closes).2 := by
  simp only [mainPhase]
  exact List.mem_append.mpr (Or.inr (List.mem_map.mpr ⟨n, hn, rfl⟩))

theorem mainPhase_batch_one (rcp : Recipe) (ext : ExtractorB)
    (mws : List Mw) (subs : List Sub) (closes : List String)
    (hsubs : ∀ s ∈ subs, s.batchSize = 1) :
    ∀ n b, Event.sinkBatch n b ∈ (mainPhase rcp ext mws subs closes).2 → b.length = 1 := by
  intro n b hb
  simp only [mainPhase] at hb
  have hinv : ∀ s ∈ (initStream subs).subs, s.sub.batchSize = 1 ∧ s.buf = [] := by
    intro s hs
    simp only [initStream, List.mem_map] at hs
    obtain ⟨x, hx, hxeq⟩ := hs
    rw [← hxeq]
    exact ⟨hsubs x hx, rfl⟩
  have hev0 : ∀ n2 b2, Event.sinkBatch n2 b2 ∈ (initStream subs).events → b2.length = 1 := by
    intro n2 b2 h
    simp [initStream] at h
  have hf := foldl_dispatch_batch_one (mws ++ [Mw.counter]) ext.emits (initStream subs) hinv hev0
  rcases List.mem_append.mp hb with h1 | h1
  · rcases List.mem_append.mp h1 with h2 | h2
    · exact hf.2 n b h2
    · have hfe : flushSubs
          (ext.emits.foldl (dispatchRecord (mws ++ [Mw.counter])) (initStream subs)).subs
            = ([], none) :=
        flushSubs_empty _ (fun s hs => (hf.1 s hs).2)
      rw [hfe] at h2
      simp at h2
  · obtain ⟨x, -, hx⟩ := List.mem_map.mp h1
    simp at hx

theorem runCore_batch_one (ag : AgentCfg) (env : Env) (rcp : Recipe) :
    ∀ n b, Event.sinkBatch n b ∈ (runCore ag env rcp).2 → b.length = 1 := by
  intro n b hb
  rcases heq : setupExtractor env rcp.source with ⟨evs1, res1⟩
  have h1 : (setupExtractor env rcp.source).1 = evs1 := by rw [heq]
  have hev1 : evs1 = [] ∨ evs1 = [Event.initExtractor rcp.source.type] := by
    rw [← h1]; exact setupExtractor_events env rcp.source
  have hm1 : Event.sinkBatch n b ∉ evs1 := by
    rcases hev1 with h2 | h2 <;> subst h2 <;> simp
  cases res1 with
  | error e =>
    simp only [runCore, heq] at hb
    exact absurd hb hm1
  | ok ext =>
    obtain ⟨k, -, hevp, -⟩ := setupProcessors_shape env rcp.processors
    rcases heq2 : setupProcessors env rcp.processors with ⟨evs2, mws2, perr⟩
    have hev2 : evs2 = (rcp.processors.take k).map (fun p => Event.initProcessor p.name) := by
      rw [← hevp, heq2]
    have hm2 : Event.sinkBatch n b ∉ evs2 := by
      rw [hev2]
      intro hmem
      obtain ⟨p, -, hp⟩ := List.mem_map.mp hmem
      simp at hp
    cases perr with
    | some e =>
      simp only [runCore, heq, heq2] at hb
      rcases List.mem_append.mp hb with h3 | h3
      · exact absurd h3 hm1
      · exact absurd h3 hm2
    | none =>
      obtain ⟨m, -, hevs, -⟩ := setupSinks_shape ag env rcp.sinks
      rcases heq3 : setupSinks ag env rcp.sinks with ⟨evs3, subs, closes, serr⟩
      have hev3 : evs3 = (rcp.sinks.take m).map (fun s => Event.initSink s.name) := by
        rw [← hevs, heq3]
      have hm3 : Event.sinkBatch n b ∉ evs3 := by
        rw [hev3]
        intro hmem
        obtain ⟨x, -, hx⟩ := List.mem_map.mp hmem
        simp at hx
      cases serr with
      | some e =>
        simp only [runCore, heq, heq2, heq3] at hb
        rcases List.mem_append.mp hb with h3 | h3
        · rcases List.mem_append.mp h3 with h4 | h4
          · exact absurd h4 hm1
          · exact absurd h4 hm2
        · exact absurd h3 hm3
      | none =>
        have hsubs : ∀ s ∈ subs, s.batchSize = 1 := by
          intro s hs
          have hx := setupSinks_batchSize ag env rcp.sinks s (by rw [heq3]; exact hs)
          simpa [defaultBatchSize] using hx
        simp only [runCore, heq, heq2, heq3] at hb
        rcases List.mem_append.mp hb with h3 | h3
        · rcases List.mem_append.mp h3 with h4 | h4
          · rcases List.mem_append.mp h4 with h5 | h5
            · exact absurd h5 hm1
            · exact absurd h5 hm2
          · exact absurd h4 hm3
        · exact mainPhase_batch_one rcp ext mws2 subs closes hsubs n b h3

/-- C4: for every Run returned by Agent.Run, on every exit path (setup
failure, extractor failure, processor failure, panic, or success),
run.Success is true if and only if run.Error is nil. -/
theorem run_success_iff_error_nil (ag : AgentCfg) (env : Env) (rcp : Recipe) :
    (runAgent ag env rcp).1.success = true ↔ (runAgent ag env rcp).1.error = none := by
  simp only [runAgent, runCore_success_eq ag env rcp, beq_iff_eq]

/-- C9: RunMultiple returns exactly one Run per input recipe, in input
order; the i-th result is exactly the Run of the i-th recipe, so the
outcome of one recipe's Run cannot change another's. -/
theorem runMultiple_in_order (ag : AgentCfg) (env : Env) (rcps : List Recipe) :
    (runMultiple ag env rcps).length = rcps.length ∧
      ∀ i : Nat, (runMultiple ag env rcps)[i]?
        = (rcps[i]?).map fun rcp => (runAgent ag env rcp).1 := by
  refine ⟨by simp [runMultiple], fun i => ?_⟩
  simp [runMultiple]

/-- C1 counterexample: the extractor emits 2 records and the processor
errors on the first, yet record_count is 0, not 2 — the counting
middleware sits after the processors, so a record dropped by a processor
error is never counted. -/
theorem recordCount_not_emitted_cex :
    (extB [0, 1] (.ret none)).emits.length = 2 ∧
    (runAgent agDef
      (mkEnv (some (extB [0, 1] (.ret none))) (some (procFailAt 0)) (some sinkOk))
      rcpProc).1.recordCount = 0 ∧
    (runAgent agDef
      (mkEnv (some (extB [0, 1] (.ret none))) (some (procFailAt 0)) (some sinkOk))
      rcpProc).1.success = false :=
  ⟨rfl, by decide, by decide⟩

/-- C2: at the failing input — a recipe whose single sink name "snk" is
not registered — Validate yields exactly one error entry, but it is
annotated with the source's type and the extractor role ("invalid config
for ext (extractor)"), not with the sink's name and the sink role; the
sink's name does not occur in the entry at all.  The same slip applies
to a missing processor. -/
theorem validate_missing_plugin_wrap_bug :
    validateRecipe (mkEnv (some (extB [] (.ret none))) none none) rcpNoProc
      = ["invalid config for ext (extractor): not found"] ∧
    containsStr "invalid config for ext (extractor): not found" "snk" = false ∧
    validateRecipe (mkEnv (some (extB [] (.ret none))) none (some sinkOk)) rcpProc
      = ["invalid config for ext (extractor): not found"] ∧
    containsStr "invalid config for ext (extractor): not found" "proc" = false :=
  ⟨by decide, by decide, by decide, by decide⟩

/-- C5 counterexample: a successful run with the injected timer
reporting 1000 ms still returns a Run whose duration_ms is 0 — the
deferred finalizer updates only the copy passed to the monitor. -/
theorem duration_not_on_returned_run_cex :
    agTimer.timer = 1000 ∧
    (runAgent agTimer (mkEnv (some (extB [0] (.ret none))) none (some sinkOk))
      rcpNoProc).1.success = true ∧
    (runAgent agTimer (mkEnv (some (extB [0] (.ret none))) none (some sinkOk))
      rcpNoProc).1.durationInMs = 0 :=
  ⟨rfl, by decide, by decide⟩

/-- C6 counterexample: the extractor emits one record and then panics
with payload "boom", but the processor fails on that record; the
middleware terminal error makes broadcast return non-nil, which
overwrites run.Error, so the error text no longer contains "boom" (the
run does still fail). -/
theorem panic_payload_overwritten_cex :
    (runAgent agDef
      (mkEnv (some (extB [5] (.panics "boom"))) (some (procFailAt 5)) (some sinkOk))
      rcpProc).1.success = false ∧
    (runAgent agDef
      (mkEnv (some (extB [5] (.panics "boom"))) (some (procFailAt 5)) (some sinkOk))
      rcpProc).1.error
      = some "failed to broadcast stream: error running processor \"proc\": bad record" ∧
    containsStr "failed to broadcast stream: error running processor \"proc\": bad record"
      "boom" = false :=
  ⟨by decide, by decide, by decide⟩

/-- C8: on every invocation of Agent.Run — success, setup failure,
extractor or processor failure, or panic — the trace ends with exactly
one monitor.RecordRun event, carrying the Run summary (the returned Run
with its duration filled in by the deferred finalizer), and no other
RecordRun event occurs. -/
theorem monitor_record_run_once (ag : AgentCfg) (env : Env) (rcp : Recipe) :
    ∃ pre,
      (runAgent ag env rcp).2
        = pre ++ [Event.recordRun (logAndRecordMetrics ag.timer (runAgent ag env rcp).1)] ∧
      ∀ e ∈ pre, e.isRecordRun = false := by
  obtain ⟨a, b, c, rest, -, -, hshape, hrest, -⟩ := runCore_events_shape ag env rcp
  refine ⟨(runCore ag env rcp).2, rfl, ?_⟩
  intro e he
  rw [hshape] at he
  simp only [List.append_assoc, List.mem_append] at he
  rcases he with h | h | h | h
  · cases a with
    | false => simp at h
    | true =>
      simp only [if_true] at h
      simp only [List.mem_singleton] at h
      subst h
      rfl
  · obtain ⟨p, -, hp⟩ := List.mem_map.mp h
    rw [← hp]
    rfl
  · obtain ⟨x, -, hx⟩ := List.mem_map.mp h
    rw [← hx]
    rfl
  · exact (hrest e h).2

/-- C5 amended: the Run copy passed to monitor.record_run carries
duration_ms equal to the injected timer value and appears in the trace;
the Run value returned to the caller keeps duration_ms at its zero
value 0 (agent.go logAndRecordMetrics receives the Run by value). -/
theorem duration_on_monitor_copy_only (ag : AgentCfg) (env : Env) (rcp : Recipe) :
    Event.recordRun (logAndRecordMetrics ag.timer (runAgent ag env rcp).1)
        ∈ (runAgent ag env rcp).2 ∧
    (logAndRecordMetrics ag.timer (runAgent ag env rcp).1).durationInMs = ag.timer ∧
    (runAgent ag env rcp).1.durationInMs = 0 := by
  refine ⟨?_, rfl, runCore_duration_eq ag env rcp⟩
  simp [runAgent]

/-- C10: every sink is subscribed with batch size exactly
defaultBatchSize = 1, whatever the agent configuration, environment and
recipe are, and consequently every batch delivered to a sink during a
run holds exactly one record. -/
theorem sink_batch_size_always_one (ag : AgentCfg) (env : Env) (rcp : Recipe) :
    defaultBatchSize = 1 ∧
    (∀ s ∈ (setupSinks ag env rcp.sinks).2.1, s.batchSize = defaultBatchSize) ∧
    ∀ n b, Event.sinkBatch n b ∈ (runAgent ag env rcp).2 → b.length = 1 := by
  refine ⟨rfl, setupSinks_batchSize ag env rcp.sinks, ?_⟩
  intro n b hb
  have hb2 : Event.sinkBatch n b ∈ (runCore ag env rcp).2 := by
    simp only [runAgent, List.mem_append] at hb
    rcases hb with h3 | h3
    · exact h3
    · simp at h3
  exact runCore_batch_one ag env rcp n b hb2

theorem sink_batch_size_always_one_witness : ([0] : List Record).length = 1 :=
  (sink_batch_size_always_one agDef
    (mkEnv (some (extB [0] (.ret none))) none (some sinkOk)) rcpNoProc).2.2
    "snk" [0] (by decide)

/-- C3: a non-nil post-retry sink error — whether it was a RetryError
exhausted by the retrier or an immediately permanent error — is reset to
nil by the subscribed batch handler when stop_on_sink_error is false, so
the Run still succeeds, and is propagated when the flag is true, making
the Run fail with the broadcast error. -/
theorem sink_error_policy (e : Err) (ag : AgentCfg) (sk : SinkB) (b : List Record) :
    (ag.stopOnSinkError = false → retry ag.maxRetries (sk.sinkFn b) = some e →
      sinkHandler ag sk b = none) ∧
    (ag.stopOnSinkError = true → retry ag.maxRetries (sk.sinkFn b) = some e →
      sinkHandler ag sk b = some e) ∧
    (runAgent agDef (mkEnv (some (extB [0] (.ret none))) none (some (sinkPerm e)))
      rcpNoProc).1.success = true ∧
    (runAgent agDef (mkEnv (some (extB [0] (.ret none))) none (some (sinkRetry e)))
      rcpNoProc).1.success = true ∧
    (runAgent agStop (mkEnv (some (extB [0] (.ret none))) none (some (sinkPerm e)))
      rcpNoProc).1.success = false ∧
    (runAgent agStop (mkEnv (some (extB [0] (.ret none))) none (some (sinkRetry e)))
      rcpNoProc).1.success = false ∧
    (runAgent agStop (mkEnv (some (extB [0] (.ret none))) none (some (sinkPerm e)))
      rcpNoProc).1.error = some ("failed to broadcast stream: " ++ e) := by
  refine ⟨?_, ?_, rfl, rfl, rfl, rfl, rfl⟩
  · intro hflag hr
    simp [sinkHandler, hr, hflag]
  · intro hflag hr
    simp [sinkHandler, hr, hflag]

theorem sink_error_policy_witness :
    sinkHandler agDef (sinkPerm "x") [0] = none ∧
    sinkHandler agStop (sinkPerm "x") [0] = some "x" :=
  ⟨(sink_error_policy "x" agDef (sinkPerm "x") [0]).1 rfl rfl,
   (sink_error_policy "x" agStop (sinkPerm "x") [0]).2.1 rfl rfl⟩

/-- C6 amended: if the extractor panics during Extract — before or after
emitting any number of records — and no stream terminal error occurred
(no processor failure, sink errors swallowed), the Run fails, run.Error
is exactly the panic payload's string form, the stream is still closed
so the sink close hook runs, and the model returns a Run normally; when
a terminal stream error also occurred, the broadcast error overwrites
run.Error and the payload is lost (see the counterexample). -/
theorem extractor_panic_handling (p : String) (l : List Record) :
    (runAgent agDef (envPanics p l) rcpNoProc).1.success = false ∧
    (runAgent agDef (envPanics p l) rcpNoProc).1.error = some p ∧
    Event.sinkClose "snk" ∈ (runAgent agDef (envPanics p l) rcpNoProc).2 := by
  have hcore : runCore agDef (envPanics p l) rcpNoProc
      = ((mainPhase rcpNoProc (extB l (.panics p)) [] [subSnk agDef] ["snk"]).1,
         Event.initExtractor "ext" :: Event.initSink "snk"
           :: (mainPhase rcpNoProc (extB l (.panics p)) [] [subSnk agDef] ["snk"]).2) := rfl
  have hh0 : ∀ s ∈ (initStream [subSnk agDef]).subs, ∀ b, s.sub.handler b = none := by
    intro s hs b
    simp only [initStream, List.map_cons, List.map_nil, List.mem_singleton] at hs
    subst hs
    rfl
  have hmw : ∀ r ∈ l, ∀ c, ∃ r2,
      applyMws (([] : List Mw) ++ [Mw.counter]) r c = (.ok r2, c + 1) :=
    fun r _ c => ⟨r, rfl⟩
  have hbenign := foldl_dispatch_benign (([] : List Mw) ++ [Mw.counter]) l
    (initStream [subSnk agDef]) rfl hh0 hmw
  have hfl := flushSubs_handlers_none _ hbenign.2.2
  have h1e : (runAgent agDef (envPanics p l) rcpNoProc).1
      = (mainPhase rcpNoProc (extB l (.panics p)) [] [subSnk agDef] ["snk"]).1 := by
    show (runCore agDef (envPanics p l) rcpNoProc).1 = _
    rw [hcore]
  have herr : (runAgent agDef (envPanics p l) rcpNoProc).1.error = some p := by
    rw [h1e, mainPhase_error_clean rcpNoProc (extB l (.panics p)) [] [subSnk agDef] ["snk"]
      hbenign.1 hfl]
    rfl
  refine ⟨?_, herr, ?_⟩
  · rw [show (runAgent agDef (envPanics p l) rcpNoProc).1.success
        = ((runAgent agDef (envPanics p l) rcpNoProc).1.error == none) from
        runCore_success_eq agDef (envPanics p l) rcpNoProc, herr]
    rfl
  · have hmem : Event.sinkClose "snk"
        ∈ (mainPhase rcpNoProc (extB l (.panics p)) [] [subSnk agDef] ["snk"]).2 :=
      mainPhase_close_mem rcpNoProc (extB l (.panics p)) [] [subSnk agDef] ["snk"]
        "snk" (by simp)
    have h2 : (runAgent agDef (envPanics p l) rcpNoProc).2
        = (runCore agDef (envPanics p l) rcpNoProc).2
          ++ [Event.recordRun (logAndRecordMetrics agDef.timer
                (runCore agDef (envPanics p l) rcpNoProc).1)] := rfl
    rw [h2]
    refine List.mem_append_left _ ?_
    rw [congrArg Prod.snd hcore]
    exact List.mem_cons_of_mem _ (List.mem_cons_of_mem _ hmem)

/-- C1 amended: record_count counts the records that passed through all
processor middlewares (the counting middleware is installed after the
processors): with no processor failure it equals the number of emitted
records, and when the processor first errors on the (j+1)-th emitted
record of N, record_count is j, not N, and the Run fails. -/
theorem recordCount_counts_survivors (k : Nat) (l l1 l2 : List Record)
    (hl : ∀ r ∈ l, r ≠ k) (h1 : ∀ r ∈ l1, r ≠ k) :
    (runAgent agDef (envCount k l) rcpProc).1.recordCount = l.length ∧
    (runAgent agDef (envCount k l) rcpProc).1.success = true ∧
    (runAgent agDef (envCount k (l1 ++ k :: l2)) rcpProc).1.recordCount = l1.length ∧
    (runAgent agDef (envCount k (l1 ++ k :: l2)) rcpProc).1.success = false := by
  have hcore : ∀ rs : List Record, runCore agDef (envCount k rs) rcpProc
      = ((mainPhase rcpProc (extB rs (.ret none))
            [Mw.proc "proc" (procFailAt k).process] [subSnk agDef] ["snk"]).1,
         Event.initExtractor "ext" :: Event.initProcessor "proc" :: Event.initSink "snk"
           :: (mainPhase rcpProc (extB rs (.ret none))
                [Mw.proc "proc" (procFailAt k).process] [subSnk agDef] ["snk"]).2) :=
    fun rs => rfl
  have hh0 : ∀ s ∈ (initStream [subSnk agDef]).subs, ∀ b, s.sub.handler b = none := by
    intro s hs b
    simp only [initStream, List.map_cons, List.map_nil, List.mem_singleton] at hs
    subst hs
    rfl
  have hmw : ∀ rs : List Record, (∀ r ∈ rs, r ≠ k) → ∀ r ∈ rs, ∀ c, ∃ r2,
      applyMws ([Mw.proc "proc" (procFailAt k).process] ++ [Mw.counter]) r c
        = (.ok r2, c + 1) := by
    intro rs hrs r hr c
    refine ⟨r, ?_⟩
    simp [applyMws, procFailAt, hrs r hr]
  have hbenL := foldl_dispatch_benign
    ([Mw.proc "proc" (procFailAt k).process] ++ [Mw.counter]) l
    (initStream [subSnk agDef]) rfl hh0 (hmw l hl)
  have h1L : (runAgent agDef (envCount k l) rcpProc).1
      = (mainPhase rcpProc (extB l (.ret none))
          [Mw.proc "proc" (procFailAt k).process] [subSnk agDef] ["snk"]).1 := by
    show (runCore agDef (envCount k l) rcpProc).1 = _
    rw [hcore l]
  have herrL : (runAgent agDef (envCount k l) rcpProc).1.error = none := by
    rw [h1L, mainPhase_error_clean rcpProc (extB l (.ret none))
      [Mw.proc "proc" (procFailAt k).process] [subSnk agDef] ["snk"]
      hbenL.1 (flushSubs_handlers_none _ hbenL.2.2)]
    rfl
  have hbenA := foldl_dispatch_benign
    ([Mw.proc "proc" (procFailAt k).process] ++ [Mw.counter]) l1
    (initStream [subSnk agDef]) rfl hh0 (hmw l1 h1)
  have happ : applyMws ([Mw.proc "proc" (procFailAt k).process] ++ [Mw.counter]) k
      (List.foldl (dispatchRecord
        ([Mw.proc "proc" (procFailAt k).process] ++ [Mw.counter]))
        (initStream [subSnk agDef]) l1).count
      = (.error (wrap "bad record" ("error running processor \"" ++ "proc" ++ "\"")),
         (List.foldl (dispatchRecord
           ([Mw.proc "proc" (procFailAt k).process] ++ [Mw.counter]))
           (initStream [subSnk agDef]) l1).count) := by
    simp [applyMws, procFailAt]
  have hstB : (dispatchRecord ([Mw.proc "proc" (procFailAt k).process] ++ [Mw.counter])
        (List.foldl (dispatchRecord
          ([Mw.proc "proc" (procFailAt k).process] ++ [Mw.counter]))
          (initStream [subSnk agDef]) l1) k).termErr
        = some (wrap "bad record" ("error running processor \"" ++ "proc" ++ "\"")) ∧
      (dispatchRecord ([Mw.proc "proc" (procFailAt k).process] ++ [Mw.counter])
        (List.foldl (dispatchRecord
          ([Mw.proc "proc" (procFailAt k).process] ++ [Mw.counter]))
          (initStream [subSnk agDef]) l1) k).count
        = (List.foldl (dispatchRecord
            ([Mw.proc "proc" (procFailAt k).process] ++ [Mw.counter]))
            (initStream [subSnk agDef]) l1).count := by
    exact dispatchRecord_error_step
      ([Mw.proc "proc" (procFailAt k).process] ++ [Mw.counter])
      (List.foldl (dispatchRecord
        ([Mw.proc "proc" (procFailAt k).process] ++ [Mw.counter]))
        (initStream [subSnk agDef]) l1) k
      (wrap "bad record" ("error running processor \"" ++ "proc" ++ "\""))
      hbenA.1 happ
  have hstuck := foldl_dispatch_stuck
    ([Mw.proc "proc" (procFailAt k).process] ++ [Mw.counter]) l2
    (dispatchRecord ([Mw.proc "proc" (procFailAt k).process] ++ [Mw.counter])
      (List.foldl (dispatchRecord
        ([Mw.proc "proc" (procFailAt k).process] ++ [Mw.counter]))
        (initStream [subSnk agDef]) l1) k)
    (wrap "bad record" ("error running processor \"" ++ "proc" ++ "\"")) hstB.1
  have hfold : List.foldl (dispatchRecord
        ([Mw.proc "proc" (procFailAt k).process] ++ [Mw.counter]))
        (initStream [subSnk agDef]) (l1 ++ k :: l2)
      = List.foldl (dispatchRecord
          ([Mw.proc "proc" (procFailAt k).process] ++ [Mw.counter]))
          (dispatchRecord ([Mw.proc "proc" (procFailAt k).process] ++ [Mw.counter])
            (List.foldl (dispatchRecord
              ([Mw.proc "proc" (procFailAt k).process] ++ [Mw.counter]))
              (initStream [subSnk agDef]) l1) k) l2 := by
    rw [List.foldl_append, List.foldl_cons]
  have h1A : (runAgent agDef (envCount k (l1 ++ k :: l2)) rcpProc).1
      = (mainPhase rcpProc (extB (l1 ++ k :: l2) (.ret none))
          [Mw.proc "proc" (procFailAt k).process] [subSnk agDef] ["snk"]).1 := by
    show (runCore agDef (envCount k (l1 ++ k :: l2)) rcpProc).1 = _
    rw [hcore (l1 ++ k :: l2)]
  have htermA : (List.foldl (dispatchRecord
        ([Mw.proc "proc" (procFailAt k).process] ++ [Mw.counter]))
        (initStream [subSnk agDef]) (l1 ++ k :: l2)).termErr
      = some (wrap "bad record" ("error running processor \"" ++ "proc" ++ "\"")) := by
    rw [hfold]
    exact hstuck.1
  have herrA : (runAgent agDef (envCount k (l1 ++ k :: l2)) rcpProc).1.error
      = some (wrap (wrap "bad record" ("error running processor \"" ++ "proc" ++ "\""))
          "failed to broadcast stream") := by
    rw [h1A, mainPhase_error_term rcpProc (extB (l1 ++ k :: l2) (.ret none))
      [Mw.proc "proc" (procFailAt k).process] [subSnk agDef] ["snk"]
      (wrap "bad record" ("error running processor \"" ++ "proc" ++ "\"")) htermA]
  refine ⟨?_, ?_, ?_, ?_⟩
  · rw [h1L, mainPhase_count]
    simpa [initStream, extB] using hbenL.2.1
  · rw [show (runAgent agDef (envCount k l) rcpProc).1.success
        = ((runAgent agDef (envCount k l) rcpProc).1.error == none) from
        runCore_success_eq agDef (envCount k l) rcpProc, herrL]
    rfl
  · rw [h1A, mainPhase_count]
    have hc2 : (List.foldl (dispatchRecord
          ([Mw.proc "proc" (procFailAt k).process] ++ [Mw.counter]))
          (initStream [subSnk agDef]) (l1 ++ k :: l2)).count = l1.length := by
      rw [hfold, hstuck.2.1, hstB.2]
      simpa [initStream] using hbenA.2.1
    simpa [extB] using hc2
  · rw [show (runAgent agDef (envCount k (l1 ++ k :: l2)) rcpProc).1.success
        = ((runAgent agDef (envCount k (l1 ++ k :: l2)) rcpProc).1.error == none) from
        runCore_success_eq agDef (envCount k (l1 ++ k :: l2)) rcpProc, herrA]
    rfl

theorem recordCount_counts_survivors_witness :
    (runAgent agDef (envCount 1 [0, 2]) rcpProc).1.recordCount = 2 ∧
    (runAgent agDef (envCount 1 [0, 2]) rcpProc).1.success = true ∧
    (runAgent agDef (envCount 1 ([0] ++ 1 :: [2])) rcpProc).1.recordCount = 1 ∧
    (runAgent agDef (envCount 1 ([0] ++ 1 :: [2])) rcpProc).1.success = false :=
  recordCount_counts_survivors 1 [0, 2] [0] [2] (by decide) (by decide)

end Meteor
